import Mathlib

/-!
Shallow embedding of the ticket-booking system
(`app/models/*.py`, `app/schemas/*.py`, `app/api/v1/endpoints/*.py`).

Modelling conventions:
* SQLAlchemy tables become Lean lists of structures; the session plus commit
  becomes explicit state passing on a `Store` value.  Auto-increment primary
  keys become per-table `next…Id` counters.
* Python `int` is `Int`, `float` prices are modelled as exact rationals
  (`Rat`); `datetime` columns are opaque `Int` timestamps (never inspected by
  the modelled endpoints).
* pydantic request schemas become structures with `valid…` boolean predicates
  for their declared field constraints (`gt=0`, `min_length`/`max_length`).
  `EmailStr` format validation is abstracted: emails are plain strings.
* `raise HTTPException` becomes `Except.error` with an `Err` value mirroring
  the error taxonomy; a handler that commits returns `Except.ok` with the new
  store.  `db.rollback` on a failed commit is modelled by the error branch
  returning no store (the caller keeps the old one).
-/

namespace TicketBooking

/-- Booking status column: the string column only ever holds these three
values (`"pending"`, `"confirmed"`, `"cancelled"`, enforced by the pydantic
regex and the creation default). -/
inductive BStatus where
  | pending
  | confirmed
  | cancelled
deriving DecidableEq, Repr

/-- Source `app/models/venue.py`: id, name, capacity, address. -/
structure Venue where
  id : Nat
  name : String
  capacity : Int
  address : String
deriving DecidableEq, Repr

/-- Source `app/models/event.py`: id, name, event_date, venue_id. -/
structure Event where
  id : Nat
  name : String
  event_date : Int
  venue_id : Nat
deriving DecidableEq, Repr

/-- Source `app/models/ticket_type.py`: id, name, price. -/
structure TicketType where
  id : Nat
  name : String
  price : Rat
deriving DecidableEq, Repr

/-- Source `app/models/booking.py`: id, customer fields, quantity, total_price,
status and the two foreign keys.  (`booking_date` is never read by any
endpoint and is omitted.) -/
structure Booking where
  id : Nat
  customer_name : String
  customer_email : String
  quantity : Int
  total_price : Rat
  status : BStatus
  event_id : Nat
  ticket_type_id : Nat
deriving DecidableEq, Repr

/-- The relational store: the four tables plus auto-increment counters. -/
structure Store where
  venues : List Venue
  events : List Event
  ticketTypes : List TicketType
  bookings : List Booking
  nextVenueId : Nat
  nextEventId : Nat
  nextTicketTypeId : Nat
  nextBookingId : Nat
deriving DecidableEq, Repr

/-- Embeds `db.query(Venue).filter(Venue.id == vid).first()` -/
def findVenue (s : Store) (vid : Nat) : Option Venue :=
  s.venues.find? (fun v => v.id == vid)

/-- Embeds `db.query(Event).filter(Event.id == eid).first()` -/
def findEvent (s : Store) (eid : Nat) : Option Event :=
  s.events.find? (fun e => e.id == eid)

/-- Embeds `db.query(TicketType).filter(TicketType.id == tid).first()` -/
def findTicketType (s : Store) (tid : Nat) : Option TicketType :=
  s.ticketTypes.find? (fun t => t.id == tid)

/-- Embeds `db.query(Booking).filter(Booking.id == bid).first()` -/
def findBooking (s : Store) (bid : Nat) : Option Booking :=
  s.bookings.find? (fun b => b.id == bid)

/-- Error taxonomy of the endpoints (each constructor is one distinct
`HTTPException` site family). -/
inductive Err where
  /-- HTTP 404 for a missing entity; the string names the entity kind. -/
  | notFound (entity : String)
  /-- HTTP 422 raised by pydantic request validation before the handler runs. -/
  | invalidArgument
  /-- HTTP 400 "Not enough capacity. Available: …" in `create_booking`. -/
  | capacityExceeded (available : Int)
  /-- HTTP 400 "Not enough capacity for … tickets" in `update_booking`. -/
  | notEnoughCapacity
  /-- HTTP 400 "Cannot change status from cancelled" in `update_booking_status`. -/
  | invalidTransition
  /-- HTTP 400 "… already exists" name-conflict in the ticket-type endpoints. -/
  | nameExists
  /-- HTTP 400 "Cannot delete ticket type with existing bookings". -/
  | cannotDeleteWithBookings
  /-- An underlying persistence failure (or an unreachable dangling
  relationship access, which in Python would be a 500). -/
  | storeFailure
deriving DecidableEq, Repr

/-- pydantic `min_length`/`max_length` bounds on a string field. -/
def strLenOk (lo hi : Nat) (s : String) : Bool :=
  lo ≤ s.length && s.length ≤ hi

/-- Embeds `Booking.status.in_(["confirmed", "pending"])` -/
def bookingActive (b : Booking) : Bool :=
  b.status == .confirmed || b.status == .pending

/-- Embeds `sum(b.quantity for b in existing_bookings)` over
`db.query(Booking).filter(Booking.event_id == eid, Booking.status.in_(["confirmed", "pending"]))`. -/
def listActiveSum (l : List Booking) (eid : Nat) : Int :=
  ((l.filter (fun b => b.event_id == eid && bookingActive b)).map
    (fun b => b.quantity)).sum

/-- The same sum over `s.bookings`. -/
def activeSum (s : Store) (eid : Nat) : Int :=
  listActiveSum s.bookings eid

/-- Embeds `sum(b.quantity ...)` over the query that also filters
`Booking.id != booking_id` (used by `update_booking`). -/
def listActiveSumEx (l : List Booking) (eid bid : Nat) : Int :=
  ((l.filter (fun b => b.event_id == eid && b.id != bid && bookingActive b)).map
    (fun b => b.quantity)).sum

/-- The excluding sum over `s.bookings`. -/
def activeSumEx (s : Store) (eid bid : Nat) : Int :=
  listActiveSumEx s.bookings eid bid

/-! ## Request schemas (`app/schemas/*.py`) -/

/-- Schema `VenueCreate`. -/
structure VenueCreate where
  name : String
  capacity : Int
  address : String
deriving DecidableEq, Repr

/-- Schema `VenueBase` field constraints: name 1..200, capacity > 0, address 1..500. -/
def validVenueCreate (r : VenueCreate) : Bool :=
  strLenOk 1 200 r.name && decide (0 < r.capacity) && strLenOk 1 500 r.address

/-- Schema `VenueUpdate` (all fields optional, `exclude_unset` semantics). -/
structure VenueUpdate where
  name : Option String
  capacity : Option Int
  address : Option String
deriving DecidableEq, Repr

/-- Schema `VenueUpdate` field constraints. -/
def validVenueUpdate (u : VenueUpdate) : Bool :=
  u.name.all (strLenOk 1 200) && u.capacity.all (fun c => decide (0 < c)) &&
    u.address.all (strLenOk 1 500)

/-- The `for field, value in update_data.items(): setattr(venue, field, value)`
loop: present fields overwrite, absent fields keep. -/
def applyVenueUpdate (u : VenueUpdate) (v : Venue) : Venue :=
  { v with
    name := u.name.getD v.name
    capacity := u.capacity.getD v.capacity
    address := u.address.getD v.address }

/-- Schema `EventCreate`. -/
structure EventCreate where
  name : String
  event_date : Int
  venue_id : Nat
deriving DecidableEq, Repr

/-- Schema `EventBase` constraints: name 1..200, venue_id > 0. -/
def validEventCreate (r : EventCreate) : Bool :=
  strLenOk 1 200 r.name && decide (0 < r.venue_id)

/-- Schema `EventUpdate`. -/
structure EventUpdate where
  name : Option String
  event_date : Option Int
  venue_id : Option Nat
deriving DecidableEq, Repr

/-- Schema `EventUpdate` field constraints. -/
def validEventUpdate (u : EventUpdate) : Bool :=
  u.name.all (strLenOk 1 200) && u.venue_id.all (fun v => decide (0 < v))

/-- setattr loop of `update_event`. -/
def applyEventUpdate (u : EventUpdate) (e : Event) : Event :=
  { e with
    name := u.name.getD e.name
    event_date := u.event_date.getD e.event_date
    venue_id := u.venue_id.getD e.venue_id }

/-- Schema `TicketTypeCreate`. -/
structure TicketTypeCreate where
  name : String
  price : Rat
deriving DecidableEq, Repr

/-- Schema `TicketTypeBase` constraints: name 1..100, price > 0. -/
def validTicketTypeCreate (r : TicketTypeCreate) : Bool :=
  strLenOk 1 100 r.name && decide (0 < r.price)

/-- Schema `TicketTypeUpdate`. -/
structure TicketTypeUpdate where
  name : Option String
  price : Option Rat
deriving DecidableEq, Repr

/-- Schema `TicketTypeUpdate` field constraints. -/
def validTicketTypeUpdate (u : TicketTypeUpdate) : Bool :=
  u.name.all (strLenOk 1 100) && u.price.all (fun p => decide (0 < p))

/-- setattr loop of `update_ticket_type`. -/
def applyTicketTypeUpdate (u : TicketTypeUpdate) (t : TicketType) : TicketType :=
  { t with
    name := u.name.getD t.name
    price := u.price.getD t.price }

/-- Schema `BookingCreate`.  `quantity` is `Int` since the claims quantify over
non-positive quantities; the ids are `Nat` (negative ids are rejected by
pydantic and are not representable here). -/
structure BookingCreate where
  customer_name : String
  customer_email : String
  quantity : Int
  event_id : Nat
  ticket_type_id : Nat
deriving DecidableEq, Repr

/-- Schema `BookingBase` constraints: name 1..200, quantity > 0, event_id > 0,
ticket_type_id > 0 (EmailStr format abstracted). -/
def validBookingCreate (r : BookingCreate) : Bool :=
  strLenOk 1 200 r.customer_name && decide (0 < r.quantity) &&
    decide (0 < r.event_id) && decide (0 < r.ticket_type_id)

/-- Schema `BookingUpdate` (a `status` value is regex-constrained to the three
statuses, which the `BStatus` type already enforces). -/
structure BookingUpdate where
  customer_name : Option String
  customer_email : Option String
  quantity : Option Int
  status : Option BStatus
deriving DecidableEq, Repr

/-- Schema `BookingUpdate` field constraints. -/
def validBookingUpdate (u : BookingUpdate) : Bool :=
  u.customer_name.all (strLenOk 1 200) && u.quantity.all (fun q => decide (0 < q))

/-- setattr loop of `update_booking` (the loop skips `total_price`, and
`BookingUpdate` has no `total_price` or `event_id` field). -/
def applyBookingUpdate (u : BookingUpdate) (b : Booking) : Booking :=
  { b with
    customer_name := u.customer_name.getD b.customer_name
    customer_email := u.customer_email.getD b.customer_email
    quantity := u.quantity.getD b.quantity
    status := u.status.getD b.status }

/-! ## Endpoint handlers -/

/-- POST `/venues/` (`create_venue`). -/
def create_venue (r : VenueCreate) (s : Store) : Except Err Store :=
  if !validVenueCreate r then .error .invalidArgument
  else
    .ok { s with
      venues := s.venues ++
        [{ id := s.nextVenueId, name := r.name, capacity := r.capacity,
           address := r.address }]
      nextVenueId := s.nextVenueId + 1 }

/-- PUT `/venues/{venue_id}` (`update_venue`). -/
def update_venue (vid : Nat) (u : VenueUpdate) (s : Store) : Except Err Store :=
  if !validVenueUpdate u then .error .invalidArgument
  else
    match findVenue s vid with
    | none => .error (.notFound "venue")
    | some _ =>
      .ok { s with
        venues := s.venues.map (fun v => if v.id == vid then applyVenueUpdate u v else v) }

/-- DELETE `/venues/{venue_id}` (`delete_venue`); the
`cascade="all, delete-orphan"` relationships delete the venue's events and,
transitively, those events' bookings. -/
def delete_venue (vid : Nat) (s : Store) : Except Err Store :=
  match findVenue s vid with
  | none => .error (.notFound "venue")
  | some _ =>
    let deadEvents := s.events.filter (fun e => e.venue_id == vid)
    .ok { s with
      venues := s.venues.filter (fun v => v.id != vid)
      events := s.events.filter (fun e => e.venue_id != vid)
      bookings := s.bookings.filter (fun b => deadEvents.all (fun e => e.id != b.event_id)) }

/-- POST `/events/` (`create_event`). -/
def create_event (r : EventCreate) (s : Store) : Except Err Store :=
  if !validEventCreate r then .error .invalidArgument
  else
    match findVenue s r.venue_id with
    | none => .error (.notFound "venue")
    | some _ =>
      .ok { s with
        events := s.events ++
          [{ id := s.nextEventId, name := r.name, event_date := r.event_date,
             venue_id := r.venue_id }]
        nextEventId := s.nextEventId + 1 }

/-- PUT `/events/{event_id}` (`update_event`).  The existence check for a new
venue runs only under `if event_update.venue_id and event_update.venue_id !=
event.venue_id` (Python truthiness: `0` is falsy, but pydantic forbids `0`). -/
def update_event (eid : Nat) (u : EventUpdate) (s : Store) : Except Err Store :=
  if !validEventUpdate u then .error .invalidArgument
  else
    match findEvent s eid with
    | none => .error (.notFound "event")
    | some e =>
      let committed : Store :=
        { s with events := s.events.map (fun x => if x.id == eid then applyEventUpdate u x else x) }
      match u.venue_id with
      | some v =>
        if v != 0 && v != e.venue_id then
          match findVenue s v with
          | none => .error (.notFound "venue")
          | some _ => .ok committed
        else .ok committed
      | none => .ok committed

/-- DELETE `/events/{event_id}` (`delete_event`); cascades to the event's
bookings via `Event.bookings`'s `cascade="all, delete-orphan"`. -/
def delete_event (eid : Nat) (s : Store) : Except Err Store :=
  match findEvent s eid with
  | none => .error (.notFound "event")
  | some _ =>
    .ok { s with
      events := s.events.filter (fun e => e.id != eid)
      bookings := s.bookings.filter (fun b => b.event_id != eid) }

/-- POST `/ticket-types/` (`create_ticket_type`). -/
def create_ticket_type (r : TicketTypeCreate) (s : Store) : Except Err Store :=
  if !validTicketTypeCreate r then .error .invalidArgument
  else if s.ticketTypes.any (fun t => t.name == r.name) then .error .nameExists
  else
    .ok { s with
      ticketTypes := s.ticketTypes ++
        [{ id := s.nextTicketTypeId, name := r.name, price := r.price }]
      nextTicketTypeId := s.nextTicketTypeId + 1 }

/-- PUT `/ticket-types/{ticket_type_id}` (`update_ticket_type`).  The name
conflict check runs only under `if ticket_type_update.name and
ticket_type_update.name != ticket_type.name` (empty string is falsy). -/
def update_ticket_type (tid : Nat) (u : TicketTypeUpdate) (s : Store) : Except Err Store :=
  if !validTicketTypeUpdate u then .error .invalidArgument
  else
    match findTicketType s tid with
    | none => .error (.notFound "ticket_type")
    | some t =>
      let committed : Store :=
        { s with ticketTypes := s.ticketTypes.map (fun x => if x.id == tid then applyTicketTypeUpdate u x else x) }
      match u.name with
      | some n =>
        if n != "" && n != t.name then
          if s.ticketTypes.any (fun x => x.name == n && x.id != tid) then .error .nameExists
          else .ok committed
        else .ok committed
      | none => .ok committed

/-- DELETE `/ticket-types/{ticket_type_id}` (`delete_ticket_type`).  The
`if ticket_type.bookings:` guard is truthiness of the relationship list:
any booking (of any status) referencing this ticket type blocks deletion. -/
def delete_ticket_type (tid : Nat) (s : Store) : Except Err Store :=
  match findTicketType s tid with
  | none => .error (.notFound "ticket_type")
  | some _ =>
    if s.bookings.any (fun b => b.ticket_type_id == tid) then
      .error .cannotDeleteWithBookings
    else
      .ok { s with ticketTypes := s.ticketTypes.filter (fun t => t.id != tid) }

/-- POST `/bookings/` (`create_booking`): verify event, verify ticket type,
sum the event's confirmed/pending bookings, compare against
`event.venue.capacity`, compute `total_price`, insert the row with the
`status` column's default `"pending"`.  pydantic validates the request body
(quantity > 0 among others) before the handler runs. -/
def create_booking (r : BookingCreate) (s : Store) : Except Err Store :=
  if !validBookingCreate r then .error .invalidArgument
  else
    match findEvent s r.event_id with
    | none => .error (.notFound "event")
    | some event =>
      match findTicketType s r.ticket_type_id with
      | none => .error (.notFound "ticket_type")
      | some tt =>
        match findVenue s event.venue_id with
        | none => .error .storeFailure
        | some venue =>
          let total_existing := activeSum s r.event_id
          if venue.capacity < total_existing + r.quantity then
            .error (.capacityExceeded (venue.capacity - total_existing))
          else
            .ok { s with
              bookings := s.bookings ++
                [{ id := s.nextBookingId, customer_name := r.customer_name,
                   customer_email := r.customer_email, quantity := r.quantity,
                   total_price := tt.price * (r.quantity : Rat),
                   status := .pending, event_id := r.event_id,
                   ticket_type_id := r.ticket_type_id }]
              nextBookingId := s.nextBookingId + 1 }

/-- The guard `if booking_update.quantity and booking_update.quantity !=
booking.quantity` of `update_booking` (Python truthiness: `0` is falsy). -/
def quantityTriggers (u : BookingUpdate) (b : Booking) : Bool :=
  match u.quantity with
  | some q => q != 0 && q != b.quantity
  | none => false

/-- PUT `/bookings/{booking_id}` (`update_booking`): when the quantity
changes, re-check capacity against the other confirmed/pending bookings of
the event, recompute `total_price` from `booking.ticket_type.price`, then
apply the setattr loop.  Note: no check of the current status — the loop
applies a `status` field unconditionally. -/
def update_booking (bid : Nat) (u : BookingUpdate) (s : Store) : Except Err Store :=
  if !validBookingUpdate u then .error .invalidArgument
  else
    match findBooking s bid with
    | none => .error (.notFound "booking")
    | some b =>
      if quantityTriggers u b then
        match findEvent s b.event_id with
        | none => .error .storeFailure
        | some e =>
          match findVenue s e.venue_id with
          | none => .error .storeFailure
          | some venue =>
            let q := u.quantity.getD b.quantity
            if venue.capacity < activeSumEx s b.event_id bid + q then
              .error .notEnoughCapacity
            else
              match findTicketType s b.ticket_type_id with
              | none => .error .storeFailure
              | some tt =>
                .ok { s with
                  bookings := s.bookings.map (fun x =>
                    if x.id == bid then
                      { applyBookingUpdate u x with total_price := tt.price * (q : Rat) }
                    else x) }
      else
        .ok { s with
          bookings := s.bookings.map (fun x =>
            if x.id == bid then applyBookingUpdate u x else x) }

/-- PUT `/bookings/{booking_id}/status` (`update_booking_status`): the
`new_status` query parameter is regex-constrained to the three statuses;
the business rule forbids leaving `cancelled`. -/
def update_booking_status (bid : Nat) (new_status : BStatus) (s : Store) : Except Err Store :=
  match findBooking s bid with
  | none => .error (.notFound "booking")
  | some b =>
    if b.status == .cancelled && new_status != .cancelled then
      .error .invalidTransition
    else
      .ok { s with
        bookings := s.bookings.map (fun x =>
          if x.id == bid then { x with status := new_status } else x) }

/-- DELETE `/bookings/{booking_id}` (`delete_booking`). -/
def delete_booking (bid : Nat) (s : Store) : Except Err Store :=
  match findBooking s bid with
  | none => .error (.notFound "booking")
  | some _ =>
    .ok { s with bookings := s.bookings.filter (fun b => b.id != bid) }

/-! ## The operation alphabet and reachability -/

/-- One exposed mutating operation of the API. -/
inductive Op where
  | createVenue (r : VenueCreate)
  | updateVenue (vid : Nat) (u : VenueUpdate)
  | deleteVenue (vid : Nat)
  | createEvent (r : EventCreate)
  | updateEvent (eid : Nat) (u : EventUpdate)
  | deleteEvent (eid : Nat)
  | createTicketType (r : TicketTypeCreate)
  | updateTicketType (tid : Nat) (u : TicketTypeUpdate)
  | deleteTicketType (tid : Nat)
  | createBooking (r : BookingCreate)
  | updateBooking (bid : Nat) (u : BookingUpdate)
  | updateBookingStatus (bid : Nat) (st : BStatus)
  | deleteBooking (bid : Nat)
deriving DecidableEq, Repr

/-- Dispatch an operation to its handler. -/
def applyOp : Op → Store → Except Err Store
  | .createVenue r, s => create_venue r s
  | .updateVenue vid u, s => update_venue vid u s
  | .deleteVenue vid, s => delete_venue vid s
  | .createEvent r, s => create_event r s
  | .updateEvent eid u, s => update_event eid u s
  | .deleteEvent eid, s => delete_event eid s
  | .createTicketType r, s => create_ticket_type r s
  | .updateTicketType tid u, s => update_ticket_type tid u s
  | .deleteTicketType tid, s => delete_ticket_type tid s
  | .createBooking r, s => create_booking r s
  | .updateBooking bid u, s => update_booking bid u s
  | .updateBookingStatus bid st, s => update_booking_status bid st s
  | .deleteBooking bid, s => delete_booking bid s

/-- The store after an operation: on success the committed store, on any
error the unchanged one (the session is rolled back / never committed). -/
def stepResult (op : Op) (s : Store) : Store :=
  match applyOp op s with
  | .ok s' => s'
  | .error _ => s

/-- The freshly created (empty) database. -/
def emptyStore : Store :=
  { venues := [], events := [], ticketTypes := [], bookings := []
    nextVenueId := 1, nextEventId := 1, nextTicketTypeId := 1, nextBookingId := 1 }

/-- States reachable from the empty store via any sequence of exposed
operations. -/
inductive Reachable : Store → Prop where
  | init : Reachable emptyStore
  | step (op : Op) {s : Store} : Reachable s → Reachable (stepResult op s)

/-! ## Generic list lemmas -/

theorem eq_of_mem_mem_pairwise_ne {α : Type} (f : α → Nat) {l : List α} {a b : α}
    (h : l.Pairwise (fun x y => f x ≠ f y)) (ha : a ∈ l) (hb : b ∈ l)
    (hf : f a = f b) : a = b := by
  induction l with
  | nil => cases ha
  | cons c t ih =>
    rcases List.pairwise_cons.mp h with ⟨hc, ht⟩
    rcases List.mem_cons.mp ha with rfl | ha'
    · rcases List.mem_cons.mp hb with rfl | hb'
      · rfl
      · exact absurd hf (hc b hb')
    · rcases List.mem_cons.mp hb with rfl | hb'
      · exact absurd hf.symm (hc a ha')
      · exact ih ht ha' hb'

theorem find?_map_comm {α : Type} (g : α → α) (p : α → Bool) (l : List α)
    (h : ∀ a, p (g a) = p a) :
    (l.map g).find? p = (l.find? p).map g := by
  induction l with
  | nil => rfl
  | cons a t ih =>
    simp only [List.map_cons, List.find?]
    rw [h a]
    cases hpa : p a <;> simp [ih]

theorem find?_filter_eq {α : Type} (p q : α → Bool) (l : List α)
    (h : ∀ a, p a = true → q a = true) :
    (l.filter q).find? p = l.find? p := by
  induction l with
  | nil => rfl
  | cons a t ih =>
    cases hqa : q a
    · have hpa : p a = false := by
        cases hpa : p a
        · rfl
        · exact absurd (h a hpa) (by simp [hqa])
      simp [List.filter_cons, hqa, List.find?, hpa, ih]
    · cases hpa : p a <;> simp [List.filter_cons, hqa, List.find?, hpa, ih]

theorem find?_append_of_some {α : Type} {p : α → Bool} {l₁ : List α} {a : α}
    (l₂ : List α) (h : l₁.find? p = some a) : (l₁ ++ l₂).find? p = some a := by
  induction l₁ with
  | nil => cases h
  | cons c t ih =>
    rw [List.cons_append]
    cases hpc : p c
    · rw [List.find?_cons_of_neg _ (by simp [hpc])] at h
      rw [List.find?_cons_of_neg _ (by simp [hpc])]
      exact ih h
    · rw [List.find?_cons_of_pos _ hpc] at h
      rw [List.find?_cons_of_pos _ hpc]
      exact h

theorem find?_append_of_none {α : Type} {p : α → Bool} {l₁ : List α}
    (l₂ : List α) (h : l₁.find? p = none) : (l₁ ++ l₂).find? p = l₂.find? p := by
  induction l₁ with
  | nil => rfl
  | cons c t ih =>
    rw [List.cons_append]
    cases hpc : p c
    · rw [List.find?_cons_of_neg _ (by simp [hpc])] at h
      rw [List.find?_cons_of_neg _ (by simp [hpc])]
      exact ih h
    · rw [List.find?_cons_of_pos _ hpc] at h
      cases h

/-! ## Contribution sums

`contrib eid b` is the number of tickets booking `b` holds against event
`eid`; `listActiveSum` (the handlers' query-and-sum) equals the sum of
contributions, which is the form the invariant proofs use. -/

/-- Tickets counted against event `eid` by booking `b`. -/
def contrib (eid : Nat) (b : Booking) : Int :=
  if b.event_id == eid && bookingActive b then b.quantity else 0

theorem contrib_nonneg {b : Booking} (eid : Nat) (h : 0 ≤ b.quantity) :
    0 ≤ contrib eid b := by
  unfold contrib
  split
  · exact h
  · exact le_refl 0

theorem contrib_le_quantity {b : Booking} (eid : Nat) (h : 0 ≤ b.quantity) :
    contrib eid b ≤ b.quantity := by
  unfold contrib
  split
  · exact le_refl _
  · exact h

theorem contrib_event_ne {b : Booking} {eid : Nat} (h : (b.event_id == eid) = false) :
    contrib eid b = 0 := by
  simp [contrib, h]

theorem listActiveSum_eq_sum_contrib (l : List Booking) (eid : Nat) :
    listActiveSum l eid = (l.map (contrib eid)).sum := by
  induction l with
  | nil => rfl
  | cons a t ih =>
    unfold listActiveSum at ih ⊢
    cases hc : (a.event_id == eid && bookingActive a) <;>
      simp [List.filter_cons, hc, contrib, ih]

theorem sum_contrib_filter_le (l : List Booking) (p : Booking → Bool) (eid : Nat)
    (h : ∀ b ∈ l, 0 ≤ b.quantity) :
    ((l.filter p).map (contrib eid)).sum ≤ (l.map (contrib eid)).sum := by
  induction l with
  | nil => exact le_refl 0
  | cons a t ih =>
    have hat := ih (fun b hb => h b (List.mem_cons_of_mem a hb))
    have ha0 : 0 ≤ contrib eid a := contrib_nonneg eid (h a (List.mem_cons_self a t))
    cases hpa : p a <;> simp [List.filter_cons, hpa]
    · linarith
    · linarith

theorem sum_contrib_eq_zero (l : List Booking) (eid : Nat)
    (h : ∀ b ∈ l, (b.event_id == eid) = false) :
    (l.map (contrib eid)).sum = 0 := by
  induction l with
  | nil => rfl
  | cons a t ih =>
    simp [contrib_event_ne (h a (List.mem_cons_self a t)),
      ih (fun b hb => h b (List.mem_cons_of_mem a hb))]

theorem sum_contrib_map_update (g : Booking → Booking) (bid eid : Nat)
    {l : List Booking} (hnd : l.Pairwise (fun x y => x.id ≠ y.id))
    {b : Booking} (hb : b ∈ l) (hbid : b.id = bid) :
    ((l.map (fun x => if x.id == bid then g x else x)).map (contrib eid)).sum
      = (l.map (contrib eid)).sum - contrib eid b + contrib eid (g b) := by
  induction l with
  | nil => cases hb
  | cons a t ih =>
    rcases List.pairwise_cons.mp hnd with ⟨hc, ht⟩
    rcases List.mem_cons.mp hb with rfl | hb'
    · have hmap : t.map (fun x => if x.id == bid then g x else x) = t := by
        conv_rhs => rw [← List.map_id t]
        apply List.map_congr_left
        intro x hx
        have : x.id ≠ bid := by
          intro hxe
          exact (hc x hx) (hbid.trans hxe.symm)
        simp [this]
      simp only [List.map_cons, hmap]
      rw [if_pos (by simp [hbid])]
      simp only [List.map_cons, List.sum_cons]
      ring
    · have haid : (a.id == bid) = false := by
        have : a.id ≠ bid := by
          intro hae
          exact (hc b hb') (hae.trans hbid.symm)
        simp [this]
      simp only [List.map_cons, List.sum_cons]
      have ha2 : (if (a.id == bid) = true then g a else a) = a := by simp [haid]
      rw [ha2, ih ht hb']
      ring

theorem listActiveSumEx_eq_sum (l : List Booking) (eid bid : Nat) :
    listActiveSumEx l eid bid
      = (l.map (fun x => if x.id == bid then 0 else contrib eid x)).sum := by
  induction l with
  | nil => rfl
  | cons a t ih =>
    unfold listActiveSumEx at ih ⊢
    rw [List.filter_cons]
    by_cases hid : a.id = bid
    · have h1 : (a.id != bid) = false := by simp [hid]
      have h2 : (a.id == bid) = true := by simp [hid]
      simp [h1, h2, ih, hid]
    · have h1 : (a.id != bid) = true := by simp [hid]
      have h2 : (a.id == bid) = false := by simp [hid]
      cases hc : (a.event_id == eid)
      · have hc' : a.event_id ≠ eid := by simpa using hc
        simp [h1, h2, hc, hc', hid, ih, contrib]
      · have hc' : a.event_id = eid := by simpa using hc
        cases hb : bookingActive a
        · simp [h1, h2, hc, hc', hb, hid, ih, contrib]
        · simp [h1, h2, hc, hc', hb, hid, ih, contrib]

theorem sum_erase_one (eid bid : Nat) {l : List Booking}
    (hnd : l.Pairwise (fun x y => x.id ≠ y.id))
    {b : Booking} (hb : b ∈ l) (hbid : b.id = bid) :
    (l.map (fun x => if x.id == bid then 0 else contrib eid x)).sum
      = (l.map (contrib eid)).sum - contrib eid b := by
  induction l with
  | nil => cases hb
  | cons a t ih =>
    rcases List.pairwise_cons.mp hnd with ⟨hc, ht⟩
    rcases List.mem_cons.mp hb with rfl | hb'
    · have hmap : t.map (fun x => if x.id == bid then 0 else contrib eid x)
          = t.map (contrib eid) := by
        apply List.map_congr_left
        intro x hx
        have : x.id ≠ bid := by
          intro hxe
          exact (hc x hx) (hbid.trans hxe.symm)
        simp [this]
      simp only [List.map_cons, List.sum_cons, hmap]
      rw [if_pos (by simp [hbid])]
      ring
    · have haid : (a.id == bid) = false := by
        have : a.id ≠ bid := by
          intro hae
          exact (hc b hb') (hae.trans hbid.symm)
        simp [this]
      have ha2 : (if (a.id == bid) = true then (0 : Int) else contrib eid a)
          = contrib eid a := by simp [haid]
      simp only [List.map_cons, List.sum_cons, ha2]
      rw [ih ht hb']
      ring

theorem sum_contribEx (eid bid : Nat) {l : List Booking}
    (hnd : l.Pairwise (fun x y => x.id ≠ y.id))
    {b : Booking} (hb : b ∈ l) (hbid : b.id = bid) :
    listActiveSumEx l eid bid = (l.map (contrib eid)).sum - contrib eid b := by
  rw [listActiveSumEx_eq_sum]
  exact sum_erase_one eid bid hnd hb hbid

/-! ## The capacity invariant -/

/-- Spec §8: "For all events, at any point in time: sum(quantity of bookings
with status ∈ \x7bpending, confirmed\x7d) ≤ venue.capacity." -/
def capacityInvariant (s : Store) : Prop :=
  ∀ e ∈ s.events, ∀ v, findVenue s e.venue_id = some v →
    activeSum s e.id ≤ v.capacity

/-- Operations that leave every venue's capacity, every event's venue
assignment, and every booking's status-via-general-update untouched.  (The
excluded operation forms are exactly the ones that can break the capacity
invariant: `update_venue` with a `capacity` field, `update_event` with a
`venue_id` field, and `update_booking` with a `status` field.) -/
def safeOp : Op → Bool
  | .updateVenue _ u => u.capacity.isNone
  | .updateEvent _ u => u.venue_id.isNone
  | .updateBooking _ u => u.status.isNone
  | _ => true

/-- Reachability restricted to the safe operations. -/
inductive SafeReachable : Store → Prop where
  | init : SafeReachable emptyStore
  | step (op : Op) {s : Store} : safeOp op = true → SafeReachable s →
      SafeReachable (stepResult op s)

/-- The inductive invariant: the capacity bound plus the bookkeeping facts
(positive capacities and quantities, id freshness and uniqueness) that make
it preservable. -/
structure Inv (s : Store) : Prop where
  venueCapPos : ∀ v ∈ s.venues, 0 < v.capacity
  venueIdLt : ∀ v ∈ s.venues, v.id < s.nextVenueId
  eventIdLt : ∀ e ∈ s.events, e.id < s.nextEventId
  eventVenueLt : ∀ e ∈ s.events, e.venue_id < s.nextVenueId
  eventsNodup : s.events.Pairwise (fun x y => x.id ≠ y.id)
  bookingQPos : ∀ b ∈ s.bookings, 0 < b.quantity
  bookingIdLt : ∀ b ∈ s.bookings, b.id < s.nextBookingId
  bookingEventLt : ∀ b ∈ s.bookings, b.event_id < s.nextEventId
  bookingsNodup : s.bookings.Pairwise (fun x y => x.id ≠ y.id)
  cap : capacityInvariant s

theorem stepResult_of_error {op : Op} {s : Store} {e : Err}
    (h : applyOp op s = .error e) : stepResult op s = s := by
  unfold stepResult
  rw [h]

theorem stepResult_of_ok {op : Op} {s t : Store}
    (h : applyOp op s = .ok t) : stepResult op s = t := by
  unfold stepResult
  rw [h]

/-- Frame lemma: the capacity bound survives keeping the venues, restricting
the events to a subset, and restricting the bookings to a sublist (all
quantities being nonnegative). -/
theorem cap_of_frame (s s' : Store)
    (hv : s'.venues = s.venues)
    (he : ∀ e ∈ s'.events, e ∈ s.events)
    (p : Booking → Bool) (hb : s'.bookings = s.bookings.filter p)
    (hq : ∀ b ∈ s.bookings, 0 ≤ b.quantity)
    (hcap : capacityInvariant s) : capacityInvariant s' := by
  intro e hes v hfv
  have hfv' : findVenue s e.venue_id = some v := by
    rw [← hfv]
    unfold findVenue
    rw [hv]
  refine le_trans ?_ (hcap e (he e hes) v hfv')
  show activeSum s' e.id ≤ activeSum s e.id
  unfold activeSum
  rw [hb, listActiveSum_eq_sum_contrib, listActiveSum_eq_sum_contrib]
  exact sum_contrib_filter_le s.bookings p e.id hq

theorem inv_createVenue (r : VenueCreate) (s : Store) (h : Inv s) :
    Inv (stepResult (.createVenue r) s) := by
  cases hval : validVenueCreate r with
  | false =>
    rw [stepResult_of_error (e := .invalidArgument) (by simp [applyOp, create_venue, hval])]
    exact h
  | true =>
    have hcap : 0 < r.capacity := by
      unfold validVenueCreate at hval
      simp only [Bool.and_eq_true, decide_eq_true_eq] at hval
      exact hval.1.2
    rw [stepResult_of_ok (t :=
      { s with
        venues := s.venues ++
          [{ id := s.nextVenueId, name := r.name, capacity := r.capacity,
             address := r.address }]
        nextVenueId := s.nextVenueId + 1 })
      (by simp [applyOp, create_venue, hval])]
    refine ⟨?_, ?_, ?_, ?_, h.eventsNodup, h.bookingQPos, h.bookingIdLt,
      h.bookingEventLt, h.bookingsNodup, ?_⟩
    · intro v hv
      rcases List.mem_append.mp hv with hv | hv
      · exact h.venueCapPos v hv
      · rw [List.mem_singleton.mp hv]
        exact hcap
    · intro v hv
      rcases List.mem_append.mp hv with hv | hv
      · exact Nat.lt_succ_of_lt (h.venueIdLt v hv)
      · rw [List.mem_singleton.mp hv]
        exact Nat.lt_succ_self _
    · intro e he
      exact h.eventIdLt e he
    · intro e he
      exact Nat.lt_succ_of_lt (h.eventVenueLt e he)
    · intro e he v hfv
      show activeSum s e.id ≤ v.capacity
      cases hold : findVenue s e.venue_id with
      | some v0 =>
        have : findVenue { s with
            venues := s.venues ++
              [{ id := s.nextVenueId, name := r.name, capacity := r.capacity,
                 address := r.address }]
            nextVenueId := s.nextVenueId + 1 } e.venue_id = some v0 :=
          find?_append_of_some _ hold
        rw [hfv] at this
        rw [Option.some.inj this]
        exact h.cap e he v0 hold
      | none =>
        have hrest : findVenue { s with
            venues := s.venues ++
              [{ id := s.nextVenueId, name := r.name, capacity := r.capacity,
                 address := r.address }]
            nextVenueId := s.nextVenueId + 1 } e.venue_id
            = List.find? (fun v => v.id == e.venue_id)
                [{ id := s.nextVenueId, name := r.name, capacity := r.capacity,
                   address := r.address }] :=
          find?_append_of_none _ hold
        have hne : (s.nextVenueId == e.venue_id) = false := by
          have := h.eventVenueLt e he
          simp only [beq_eq_false_iff_ne, ne_eq]
          omega
        rw [hfv] at hrest
        simp [List.find?, hne] at hrest

theorem inv_createEvent (r : EventCreate) (s : Store) (h : Inv s) :
    Inv (stepResult (.createEvent r) s) := by
  cases hval : validEventCreate r with
  | false =>
    rw [stepResult_of_error (e := .invalidArgument) (by simp [applyOp, create_event, hval])]
    exact h
  | true =>
    cases hfv : findVenue s r.venue_id with
    | none =>
      rw [stepResult_of_error (e := .notFound "venue")
        (by simp [applyOp, create_event, hval, hfv])]
      exact h
    | some v0 =>
      have hv0 : v0 ∈ s.venues := List.mem_of_find?_eq_some hfv
      have hv0id : v0.id = r.venue_id := by
        have := List.find?_some hfv
        simpa using this
      rw [stepResult_of_ok (t :=
        { s with
          events := s.events ++
            [{ id := s.nextEventId, name := r.name, event_date := r.event_date,
               venue_id := r.venue_id }]
          nextEventId := s.nextEventId + 1 })
        (by simp [applyOp, create_event, hval, hfv])]
      refine ⟨h.venueCapPos, h.venueIdLt, ?_, ?_, ?_, h.bookingQPos,
        h.bookingIdLt, ?_, h.bookingsNodup, ?_⟩
      · intro e he
        rcases List.mem_append.mp he with he | he
        · exact Nat.lt_succ_of_lt (h.eventIdLt e he)
        · rw [List.mem_singleton.mp he]
          exact Nat.lt_succ_self _
      · intro e he
        rcases List.mem_append.mp he with he | he
        · exact h.eventVenueLt e he
        · rw [List.mem_singleton.mp he]
          show r.venue_id < s.nextVenueId
          rw [← hv0id]
          exact h.venueIdLt v0 hv0
      · rw [List.pairwise_append]
        refine ⟨h.eventsNodup, List.pairwise_singleton _ _, ?_⟩
        intro a ha b hb
        rw [List.mem_singleton.mp hb]
        have := h.eventIdLt a ha
        show a.id ≠ s.nextEventId
        omega
      · intro b hb
        exact Nat.lt_succ_of_lt (h.bookingEventLt b hb)
      · intro e he v hfv'
        have hfv'' : findVenue s e.venue_id = some v := hfv'
        rcases List.mem_append.mp he with he | he
        · exact h.cap e he v hfv''
        · rw [List.mem_singleton.mp he] at hfv'' ⊢
          show activeSum s s.nextEventId ≤ v.capacity
          have hzero : activeSum s s.nextEventId = 0 := by
            unfold activeSum
            rw [listActiveSum_eq_sum_contrib]
            apply sum_contrib_eq_zero
            intro b hb
            have := h.bookingEventLt b hb
            simp only [beq_eq_false_iff_ne, ne_eq]
            omega
          rw [hzero]
          have hvmem : v ∈ s.venues := List.mem_of_find?_eq_some hfv''
          exact le_of_lt (h.venueCapPos v hvmem)

theorem inv_createTicketType (r : TicketTypeCreate) (s : Store) (h : Inv s) :
    Inv (stepResult (.createTicketType r) s) := by
  cases hval : validTicketTypeCreate r with
  | false =>
    rw [stepResult_of_error (e := .invalidArgument)
      (by simp [applyOp, create_ticket_type, hval])]
    exact h
  | true =>
    cases hdup : s.ticketTypes.any (fun t => t.name == r.name) with
    | true =>
      rw [stepResult_of_error (e := .nameExists)
        (by simp [applyOp, create_ticket_type, hval, hdup])]
      exact h
    | false =>
      rw [stepResult_of_ok (t :=
        { s with
          ticketTypes := s.ticketTypes ++
            [{ id := s.nextTicketTypeId, name := r.name, price := r.price }]
          nextTicketTypeId := s.nextTicketTypeId + 1 })
        (by simp [applyOp, create_ticket_type, hval, hdup])]
      exact ⟨h.venueCapPos, h.venueIdLt, h.eventIdLt, h.eventVenueLt,
        h.eventsNodup, h.bookingQPos, h.bookingIdLt, h.bookingEventLt,
        h.bookingsNodup, h.cap⟩

theorem inv_deleteBooking (bid : Nat) (s : Store) (h : Inv s) :
    Inv (stepResult (.deleteBooking bid) s) := by
  cases hfb : findBooking s bid with
  | none =>
    rw [stepResult_of_error (e := .notFound "booking")
      (by simp [applyOp, delete_booking, hfb])]
    exact h
  | some b =>
    rw [stepResult_of_ok (t :=
      { s with bookings := s.bookings.filter (fun b => b.id != bid) })
      (by simp [applyOp, delete_booking, hfb])]
    refine ⟨h.venueCapPos, h.venueIdLt, h.eventIdLt, h.eventVenueLt,
      h.eventsNodup, ?_, ?_, ?_, ?_, ?_⟩
    · intro b hb
      exact h.bookingQPos b (List.mem_of_mem_filter hb)
    · intro b hb
      exact h.bookingIdLt b (List.mem_of_mem_filter hb)
    · intro b hb
      exact h.bookingEventLt b (List.mem_of_mem_filter hb)
    · exact List.Pairwise.sublist (List.filter_sublist _) h.bookingsNodup
    · exact cap_of_frame s _ rfl (fun e he => he) _ rfl
        (fun b hb => le_of_lt (h.bookingQPos b hb)) h.cap

theorem inv_deleteEvent (eid : Nat) (s : Store) (h : Inv s) :
    Inv (stepResult (.deleteEvent eid) s) := by
  cases hfe : findEvent s eid with
  | none =>
    rw [stepResult_of_error (e := .notFound "event")
      (by simp [applyOp, delete_event, hfe])]
    exact h
  | some ev =>
    rw [stepResult_of_ok (t :=
      { s with
        events := s.events.filter (fun e => e.id != eid)
        bookings := s.bookings.filter (fun b => b.event_id != eid) })
      (by simp [applyOp, delete_event, hfe])]
    refine ⟨h.venueCapPos, h.venueIdLt, ?_, ?_, ?_, ?_, ?_, ?_, ?_, ?_⟩
    · intro e he
      exact h.eventIdLt e (List.mem_of_mem_filter he)
    · intro e he
      exact h.eventVenueLt e (List.mem_of_mem_filter he)
    · exact List.Pairwise.sublist (List.filter_sublist _) h.eventsNodup
    · intro b hb
      exact h.bookingQPos b (List.mem_of_mem_filter hb)
    · intro b hb
      exact h.bookingIdLt b (List.mem_of_mem_filter hb)
    · intro b hb
      exact h.bookingEventLt b (List.mem_of_mem_filter hb)
    · exact List.Pairwise.sublist (List.filter_sublist _) h.bookingsNodup
    · exact cap_of_frame s _ rfl (fun e he => List.mem_of_mem_filter he) _ rfl
        (fun b hb => le_of_lt (h.bookingQPos b hb)) h.cap

theorem inv_deleteTicketType (tid : Nat) (s : Store) (h : Inv s) :
    Inv (stepResult (.deleteTicketType tid) s) := by
  cases hft : findTicketType s tid with
  | none =>
    rw [stepResult_of_error (e := .notFound "ticket_type")
      (by simp [applyOp, delete_ticket_type, hft])]
    exact h
  | some t =>
    cases hany : s.bookings.any (fun b => b.ticket_type_id == tid) with
    | true =>
      rw [stepResult_of_error (e := .cannotDeleteWithBookings)
        (by simp [applyOp, delete_ticket_type, hft, hany])]
      exact h
    | false =>
      rw [stepResult_of_ok (t :=
        { s with ticketTypes := s.ticketTypes.filter (fun t => t.id != tid) })
        (by simp [applyOp, delete_ticket_type, hft, hany])]
      exact ⟨h.venueCapPos, h.venueIdLt, h.eventIdLt, h.eventVenueLt,
        h.eventsNodup, h.bookingQPos, h.bookingIdLt, h.bookingEventLt,
        h.bookingsNodup, h.cap⟩

theorem inv_deleteVenue (vid : Nat) (s : Store) (h : Inv s) :
    Inv (stepResult (.deleteVenue vid) s) := by
  cases hfv : findVenue s vid with
  | none =>
    rw [stepResult_of_error (e := .notFound "venue")
      (by simp [applyOp, delete_venue, hfv])]
    exact h
  | some v0 =>
    rw [stepResult_of_ok (t :=
      { s with
        venues := s.venues.filter (fun v => v.id != vid)
        events := s.events.filter (fun e => e.venue_id != vid)
        bookings := s.bookings.filter (fun b =>
          (s.events.filter (fun e => e.venue_id == vid)).all (fun e => e.id != b.event_id)) })
      (by simp [applyOp, delete_venue, hfv])]
    refine ⟨?_, ?_, ?_, ?_, ?_, ?_, ?_, ?_, ?_, ?_⟩
    · intro v hv
      exact h.venueCapPos v (List.mem_of_mem_filter hv)
    · intro v hv
      exact h.venueIdLt v (List.mem_of_mem_filter hv)
    · intro e he
      exact h.eventIdLt e (List.mem_of_mem_filter he)
    · intro e he
      exact h.eventVenueLt e (List.mem_of_mem_filter he)
    · exact List.Pairwise.sublist (List.filter_sublist _) h.eventsNodup
    · intro b hb
      exact h.bookingQPos b (List.mem_of_mem_filter hb)
    · intro b hb
      exact h.bookingIdLt b (List.mem_of_mem_filter hb)
    · intro b hb
      exact h.bookingEventLt b (List.mem_of_mem_filter hb)
    · exact List.Pairwise.sublist (List.filter_sublist _) h.bookingsNodup
    · intro e he v hfv'
      have hmem : e ∈ s.events := List.mem_of_mem_filter he
      have hkeep : e.venue_id ≠ vid := by
        have := List.of_mem_filter he
        simpa using this
      have hfind : findVenue s e.venue_id = some v := by
        rw [← hfv']
        show s.venues.find? (fun a => a.id == e.venue_id)
            = (s.venues.filter (fun v => v.id != vid)).find? (fun a => a.id == e.venue_id)
        rw [find?_filter_eq]
        intro a ha
        have : a.id = e.venue_id := by simpa using ha
        simp [this, hkeep]
      refine le_trans ?_ (h.cap e hmem v hfind)
      show listActiveSum _ e.id ≤ listActiveSum s.bookings e.id
      rw [listActiveSum_eq_sum_contrib, listActiveSum_eq_sum_contrib]
      exact sum_contrib_filter_le s.bookings _ e.id
        (fun b hb => le_of_lt (h.bookingQPos b hb))

theorem inv_updateVenue (vid : Nat) (u : VenueUpdate) (s : Store)
    (hsafe : u.capacity = none) (h : Inv s) :
    Inv (stepResult (.updateVenue vid u) s) := by
  cases hval : validVenueUpdate u with
  | false =>
    rw [stepResult_of_error (e := .invalidArgument)
      (by simp [applyOp, update_venue, hval])]
    exact h
  | true =>
    cases hfv : findVenue s vid with
    | none =>
      rw [stepResult_of_error (e := .notFound "venue")
        (by simp [applyOp, update_venue, hval, hfv])]
      exact h
    | some v0 =>
      have hgid : ∀ v : Venue,
          (if v.id == vid then applyVenueUpdate u v else v).id = v.id := by
        intro v
        split <;> simp [applyVenueUpdate]
      have hgcap : ∀ v : Venue,
          (if v.id == vid then applyVenueUpdate u v else v).capacity = v.capacity := by
        intro v
        split <;> simp [applyVenueUpdate, hsafe]
      rw [stepResult_of_ok (t :=
        { s with
          venues := s.venues.map (fun v => if v.id == vid then applyVenueUpdate u v else v) })
        (by simp [applyOp, update_venue, hval, hfv])]
      refine ⟨?_, ?_, h.eventIdLt, h.eventVenueLt, h.eventsNodup, h.bookingQPos,
        h.bookingIdLt, h.bookingEventLt, h.bookingsNodup, ?_⟩
      · intro v hv
        rcases List.mem_map.mp hv with ⟨x, hx, rfl⟩
        rw [hgcap x]
        exact h.venueCapPos x hx
      · intro v hv
        rcases List.mem_map.mp hv with ⟨x, hx, rfl⟩
        rw [hgid x]
        exact h.venueIdLt x hx
      · intro e he v hfv'
        have hcomm : findVenue
            { s with
              venues := s.venues.map (fun v => if v.id == vid then applyVenueUpdate u v else v) }
            e.venue_id
            = (findVenue s e.venue_id).map
                (fun v => if v.id == vid then applyVenueUpdate u v else v) := by
          show (s.venues.map _).find? _ = _
          exact find?_map_comm _ _ _ (fun a => by rw [hgid a])
        rw [hcomm] at hfv'
        rcases Option.map_eq_some'.mp hfv' with ⟨v1, hv1, rfl⟩
        rw [hgcap v1]
        exact h.cap e he v1 hv1

theorem inv_updateEvent (eid : Nat) (u : EventUpdate) (s : Store)
    (hsafe : u.venue_id = none) (h : Inv s) :
    Inv (stepResult (.updateEvent eid u) s) := by
  cases hval : validEventUpdate u with
  | false =>
    rw [stepResult_of_error (e := .invalidArgument)
      (by simp [applyOp, update_event, hval])]
    exact h
  | true =>
    cases hfe : findEvent s eid with
    | none =>
      rw [stepResult_of_error (e := .notFound "event")
        (by simp [applyOp, update_event, hval, hfe])]
      exact h
    | some e0 =>
      have hgid : ∀ e : Event,
          (if e.id == eid then applyEventUpdate u e else e).id = e.id := by
        intro e
        split <;> simp [applyEventUpdate]
      have hgvid : ∀ e : Event,
          (if e.id == eid then applyEventUpdate u e else e).venue_id = e.venue_id := by
        intro e
        split <;> simp [applyEventUpdate, hsafe]
      rw [stepResult_of_ok (t :=
        { s with
          events := s.events.map (fun x => if x.id == eid then applyEventUpdate u x else x) })
        (by simp [applyOp, update_event, hval, hfe, hsafe])]
      refine ⟨h.venueCapPos, h.venueIdLt, ?_, ?_, ?_, h.bookingQPos,
        h.bookingIdLt, h.bookingEventLt, h.bookingsNodup, ?_⟩
      · intro e he
        rcases List.mem_map.mp he with ⟨x, hx, rfl⟩
        rw [hgid x]
        exact h.eventIdLt x hx
      · intro e he
        rcases List.mem_map.mp he with ⟨x, hx, rfl⟩
        rw [hgvid x]
        exact h.eventVenueLt x hx
      · exact List.Pairwise.map _ (fun a b hab => by rw [hgid a, hgid b]; exact hab)
          h.eventsNodup
      · intro e he v hfv'
        rcases List.mem_map.mp he with ⟨x, hx, rfl⟩
        rw [hgvid x] at hfv'
        have : activeSum s x.id ≤ v.capacity := h.cap x hx v hfv'
        show activeSum s (if x.id == eid then applyEventUpdate u x else x).id ≤ v.capacity
        rw [hgid x]
        exact this

theorem inv_updateTicketType (tid : Nat) (u : TicketTypeUpdate) (s : Store)
    (h : Inv s) : Inv (stepResult (.updateTicketType tid u) s) := by
  cases happly : applyOp (.updateTicketType tid u) s with
  | error e =>
    rw [stepResult_of_error happly]
    exact h
  | ok s' =>
    rw [stepResult_of_ok happly]
    have hframe : s'.venues = s.venues ∧ s'.events = s.events ∧
        s'.bookings = s.bookings ∧ s'.nextVenueId = s.nextVenueId ∧
        s'.nextEventId = s.nextEventId ∧ s'.nextBookingId = s.nextBookingId := by
      simp only [applyOp, update_ticket_type] at happly
      repeat' split at happly
      all_goals cases happly
      all_goals exact ⟨rfl, rfl, rfl, rfl, rfl, rfl⟩
    obtain ⟨hv, he, hb, hnv, hne, hnb⟩ := hframe
    refine ⟨?_, ?_, ?_, ?_, ?_, ?_, ?_, ?_, ?_, ?_⟩
    · rw [hv]; exact h.venueCapPos
    · rw [hv, hnv]; exact h.venueIdLt
    · rw [he, hne]; exact h.eventIdLt
    · rw [he, hnv]; exact h.eventVenueLt
    · rw [he]; exact h.eventsNodup
    · rw [hb]; exact h.bookingQPos
    · rw [hb, hnb]; exact h.bookingIdLt
    · rw [hb, hne]; exact h.bookingEventLt
    · rw [hb]; exact h.bookingsNodup
    · intro e he' v hfv
      have hfv' : findVenue s e.venue_id = some v := by
        rw [← hfv]
        unfold findVenue
        rw [hv]
      have : activeSum s e.id ≤ v.capacity := h.cap e (he ▸ he') v hfv'
      unfold activeSum at this ⊢
      rw [hb]
      exact this

theorem inv_createBooking (r : BookingCreate) (s : Store) (h : Inv s) :
    Inv (stepResult (.createBooking r) s) := by
  cases hval : validBookingCreate r with
  | false =>
    rw [stepResult_of_error (e := .invalidArgument)
      (by simp [applyOp, create_booking, hval])]
    exact h
  | true =>
    cases hfe : findEvent s r.event_id with
    | none =>
      rw [stepResult_of_error (e := .notFound "event")
        (by simp [applyOp, create_booking, hval, hfe])]
      exact h
    | some ev =>
      cases hft : findTicketType s r.ticket_type_id with
      | none =>
        rw [stepResult_of_error (e := .notFound "ticket_type")
          (by simp [applyOp, create_booking, hval, hfe, hft])]
        exact h
      | some tt =>
        cases hfv : findVenue s ev.venue_id with
        | none =>
          rw [stepResult_of_error (e := .storeFailure)
            (by simp [applyOp, create_booking, hval, hfe, hft, hfv])]
          exact h
        | some venue =>
          have hq : 0 < r.quantity := by
            simp only [validBookingCreate, Bool.and_eq_true, decide_eq_true_eq] at hval
            exact hval.1.1.2
          have hevmem : ev ∈ s.events := List.mem_of_find?_eq_some hfe
          have hevid : ev.id = r.event_id := by
            simpa using List.find?_some hfe
          by_cases hcap : venue.capacity < activeSum s r.event_id + r.quantity
          · rw [stepResult_of_error
              (e := .capacityExceeded (venue.capacity - activeSum s r.event_id))
              (by simp [applyOp, create_booking, hval, hfe, hft, hfv, hcap])]
            exact h
          · rw [stepResult_of_ok (t :=
              { s with
                bookings := s.bookings ++
                  [{ id := s.nextBookingId, customer_name := r.customer_name,
                     customer_email := r.customer_email, quantity := r.quantity,
                     total_price := tt.price * (r.quantity : Rat),
                     status := .pending, event_id := r.event_id,
                     ticket_type_id := r.ticket_type_id }]
                nextBookingId := s.nextBookingId + 1 })
              (by simp [applyOp, create_booking, hval, hfe, hft, hfv, hcap])]
            refine ⟨h.venueCapPos, h.venueIdLt, h.eventIdLt, h.eventVenueLt,
              h.eventsNodup, ?_, ?_, ?_, ?_, ?_⟩
            · intro b hb
              rcases List.mem_append.mp hb with hb | hb
              · exact h.bookingQPos b hb
              · rw [List.mem_singleton.mp hb]
                exact hq
            · intro b hb
              rcases List.mem_append.mp hb with hb | hb
              · exact Nat.lt_succ_of_lt (h.bookingIdLt b hb)
              · rw [List.mem_singleton.mp hb]
                exact Nat.lt_succ_self _
            · intro b hb
              rcases List.mem_append.mp hb with hb | hb
              · exact h.bookingEventLt b hb
              · rw [List.mem_singleton.mp hb]
                show r.event_id < s.nextEventId
                rw [← hevid]
                exact h.eventIdLt ev hevmem
            · rw [List.pairwise_append]
              refine ⟨h.bookingsNodup, List.pairwise_singleton _ _, ?_⟩
              intro a ha b hb
              rw [List.mem_singleton.mp hb]
              have := h.bookingIdLt a ha
              show a.id ≠ s.nextBookingId
              omega
            · intro e he v hfv'
              have hfv'' : findVenue s e.venue_id = some v := hfv'
              have he' : e ∈ s.events := he
              have hsum : activeSum
                  { s with
                    bookings := s.bookings ++
                      [{ id := s.nextBookingId, customer_name := r.customer_name,
                         customer_email := r.customer_email, quantity := r.quantity,
                         total_price := tt.price * (r.quantity : Rat),
                         status := .pending, event_id := r.event_id,
                         ticket_type_id := r.ticket_type_id }]
                    nextBookingId := s.nextBookingId + 1 } e.id
                  = activeSum s e.id + contrib e.id
                      { id := s.nextBookingId, customer_name := r.customer_name,
                        customer_email := r.customer_email, quantity := r.quantity,
                        total_price := tt.price * (r.quantity : Rat),
                        status := .pending, event_id := r.event_id,
                        ticket_type_id := r.ticket_type_id } := by
                unfold activeSum
                rw [listActiveSum_eq_sum_contrib, listActiveSum_eq_sum_contrib]
                show (List.map (contrib e.id) (s.bookings ++ [_])).sum = _
                rw [List.map_append, List.sum_append]
                simp
              rw [hsum]
              by_cases hee : e.id = r.event_id
              · have heev : e = ev :=
                  eq_of_mem_mem_pairwise_ne Event.id h.eventsNodup he' hevmem
                    (hee.trans hevid.symm)
                have hvv : v = venue := by
                  rw [heev] at hfv''
                  rw [hfv''] at hfv
                  exact Option.some.inj hfv
                have hcontrib : contrib e.id
                    { id := s.nextBookingId, customer_name := r.customer_name,
                      customer_email := r.customer_email, quantity := r.quantity,
                      total_price := tt.price * (r.quantity : Rat),
                      status := .pending, event_id := r.event_id,
                      ticket_type_id := r.ticket_type_id } = r.quantity := by
                  simp [contrib, bookingActive, hee]
                rw [hcontrib, hvv, hee]
                omega
              · have hcontrib : contrib e.id
                    { id := s.nextBookingId, customer_name := r.customer_name,
                      customer_email := r.customer_email, quantity := r.quantity,
                      total_price := tt.price * (r.quantity : Rat),
                      status := .pending, event_id := r.event_id,
                      ticket_type_id := r.ticket_type_id } = 0 := by
                  have : (r.event_id == e.id) = false := by
                    simp only [beq_eq_false_iff_ne, ne_eq]
                    exact fun hc => hee hc.symm
                  simp [contrib, this]
                rw [hcontrib, add_zero]
                exact h.cap e he' v hfv''

theorem inv_updateBookingStatus (bid : Nat) (st : BStatus) (s : Store) (h : Inv s) :
    Inv (stepResult (.updateBookingStatus bid st) s) := by
  cases hfb : findBooking s bid with
  | none =>
    rw [stepResult_of_error (e := .notFound "booking")
      (by simp [applyOp, update_booking_status, hfb])]
    exact h
  | some b =>
    have hbmem : b ∈ s.bookings := List.mem_of_find?_eq_some hfb
    have hbid : b.id = bid := by simpa using List.find?_some hfb
    cases hguard : (b.status == BStatus.cancelled && st != BStatus.cancelled) with
    | true =>
      rw [stepResult_of_error (e := .invalidTransition)
        (by simp [applyOp, update_booking_status, hfb, hguard])]
      exact h
    | false =>
      rw [stepResult_of_ok (t :=
        { s with
          bookings := s.bookings.map (fun x =>
            if x.id == bid then { x with status := st } else x) })
        (by simp only [applyOp, update_booking_status, hfb, hguard,
              Bool.false_eq_true, if_neg, ite_false])]
      have hgq : ∀ x : Booking,
          (if x.id == bid then { x with status := st } else x).quantity
            = x.quantity := by
        intro x
        split <;> rfl
      have hgidp : ∀ x : Booking,
          (if x.id == bid then { x with status := st } else x).id = x.id := by
        intro x
        split <;> rfl
      have hgev : ∀ x : Booking,
          (if x.id == bid then { x with status := st } else x).event_id
            = x.event_id := by
        intro x
        split <;> rfl
      refine ⟨h.venueCapPos, h.venueIdLt, h.eventIdLt, h.eventVenueLt,
        h.eventsNodup, ?_, ?_, ?_, ?_, ?_⟩
      · intro x hx
        rcases List.mem_map.mp hx with ⟨y, hy, rfl⟩
        rw [hgq y]
        exact h.bookingQPos y hy
      · intro x hx
        rcases List.mem_map.mp hx with ⟨y, hy, rfl⟩
        rw [hgidp y]
        exact h.bookingIdLt y hy
      · intro x hx
        rcases List.mem_map.mp hx with ⟨y, hy, rfl⟩
        rw [hgev y]
        exact h.bookingEventLt y hy
      · exact List.Pairwise.map _ (fun a c hac => by rw [hgidp a, hgidp c]; exact hac)
          h.bookingsNodup
      · intro e he v hfv
        have hfv' : findVenue s e.venue_id = some v := hfv
        have he' : e ∈ s.events := he
        have hsum := sum_contrib_map_update (fun x => { x with status := st })
          bid e.id h.bookingsNodup hbmem hbid
        dsimp only at hsum
        have hbq : (0 : Int) ≤ b.quantity := le_of_lt (h.bookingQPos b hbmem)
        have hcontrib : contrib e.id { b with status := st } ≤ contrib e.id b := by
          cases st with
          | cancelled =>
            have : contrib e.id { b with status := BStatus.cancelled } = 0 := by
              simp [contrib, bookingActive]
            rw [this]
            exact contrib_nonneg e.id hbq
          | pending =>
            have hbs : (b.status == BStatus.cancelled) = false := by
              rcases Bool.and_eq_false_iff.mp hguard with hb' | hst
              · exact hb'
              · simp at hst
            apply le_of_eq
            cases hstat : b.status <;> simp [contrib, bookingActive, hstat] <;>
              simp [hstat] at hbs
          | confirmed =>
            have hbs : (b.status == BStatus.cancelled) = false := by
              rcases Bool.and_eq_false_iff.mp hguard with hb' | hst
              · exact hb'
              · simp at hst
            apply le_of_eq
            cases hstat : b.status <;> simp [contrib, bookingActive, hstat] <;>
              simp [hstat] at hbs
        show activeSum _ e.id ≤ v.capacity
        unfold activeSum
        rw [listActiveSum_eq_sum_contrib]
        show (List.map (contrib e.id) (s.bookings.map _)).sum ≤ v.capacity
        rw [hsum]
        have hbase : (s.bookings.map (contrib e.id)).sum ≤ v.capacity := by
          have := h.cap e he' v hfv'
          unfold activeSum at this
          rw [listActiveSum_eq_sum_contrib] at this
          exact this
        omega

theorem inv_updateBooking (bid : Nat) (u : BookingUpdate) (s : Store)
    (hsafe : u.status = none) (h : Inv s) :
    Inv (stepResult (.updateBooking bid u) s) := by
  cases hval : validBookingUpdate u with
  | false =>
    rw [stepResult_of_error (e := .invalidArgument)
      (by simp [applyOp, update_booking, hval])]
    exact h
  | true =>
    cases hfb : findBooking s bid with
    | none =>
      rw [stepResult_of_error (e := .notFound "booking")
        (by simp [applyOp, update_booking, hval, hfb])]
      exact h
    | some b =>
      have hbmem : b ∈ s.bookings := List.mem_of_find?_eq_some hfb
      have hbid : b.id = bid := by simpa using List.find?_some hfb
      have hqpos : ∀ q, u.quantity = some q → 0 < q := by
        intro q hq
        simp only [validBookingUpdate, Bool.and_eq_true] at hval
        have := hval.2
        rw [hq] at this
        simpa using this
      cases htrig : quantityTriggers u b with
      | false =>
        rw [stepResult_of_ok (t :=
          { s with
            bookings := s.bookings.map (fun x =>
              if x.id == bid then applyBookingUpdate u x else x) })
          (by simp [applyOp, update_booking, hval, hfb, htrig])]
        have hgq : ∀ x ∈ s.bookings,
            0 < (if x.id == bid then applyBookingUpdate u x else x).quantity := by
          intro x hx
          split
          · show 0 < u.quantity.getD x.quantity
            cases hq : u.quantity with
            | none => exact h.bookingQPos x hx
            | some q => exact hqpos q hq
          · exact h.bookingQPos x hx
        have hgidp : ∀ x : Booking,
            (if x.id == bid then applyBookingUpdate u x else x).id = x.id := by
          intro x
          split <;> rfl
        have hgev : ∀ x : Booking,
            (if x.id == bid then applyBookingUpdate u x else x).event_id
              = x.event_id := by
          intro x
          split <;> rfl
        have hbqeq : u.quantity.getD b.quantity = b.quantity := by
          cases hq : u.quantity with
          | none => rfl
          | some q =>
            unfold quantityTriggers at htrig
            rw [hq] at htrig
            have hq0 : q ≠ 0 := by
              have := hqpos q hq
              omega
            simp only [bne, Bool.and_eq_false_iff, Bool.not_eq_false'] at htrig
            rcases htrig with h0 | hqb
            · exact absurd (by simpa using h0) hq0
            · simpa using hqb
        refine ⟨h.venueCapPos, h.venueIdLt, h.eventIdLt, h.eventVenueLt,
          h.eventsNodup, ?_, ?_, ?_, ?_, ?_⟩
        · intro x hx
          rcases List.mem_map.mp hx with ⟨y, hy, rfl⟩
          exact hgq y hy
        · intro x hx
          rcases List.mem_map.mp hx with ⟨y, hy, rfl⟩
          rw [hgidp y]
          exact h.bookingIdLt y hy
        · intro x hx
          rcases List.mem_map.mp hx with ⟨y, hy, rfl⟩
          rw [hgev y]
          exact h.bookingEventLt y hy
        · exact List.Pairwise.map _
            (fun a c hac => by rw [hgidp a, hgidp c]; exact hac) h.bookingsNodup
        · intro e he v hfv
          have hfv' : findVenue s e.venue_id = some v := hfv
          have he' : e ∈ s.events := he
          have hsum := sum_contrib_map_update (applyBookingUpdate u)
            bid e.id h.bookingsNodup hbmem hbid
          have hceq : contrib e.id (applyBookingUpdate u b) = contrib e.id b := by
            unfold contrib bookingActive applyBookingUpdate
            rw [hsafe]
            simp only [Option.getD_none, hbqeq]
          show activeSum _ e.id ≤ v.capacity
          unfold activeSum
          rw [listActiveSum_eq_sum_contrib]
          show (List.map (contrib e.id) (s.bookings.map _)).sum ≤ v.capacity
          rw [hsum, hceq]
          have hbase := h.cap e he' v hfv'
          unfold activeSum at hbase
          rw [listActiveSum_eq_sum_contrib] at hbase
          omega
      | true =>
        obtain ⟨q0, hq0⟩ : ∃ q0, u.quantity = some q0 := by
          unfold quantityTriggers at htrig
          cases hq : u.quantity with
          | none => rw [hq] at htrig; cases htrig
          | some q => exact ⟨q, rfl⟩
        have hq0pos : 0 < q0 := hqpos q0 hq0
        have hgetD : u.quantity.getD b.quantity = q0 := by rw [hq0]; rfl
        cases hfe : findEvent s b.event_id with
        | none =>
          rw [stepResult_of_error (e := .storeFailure)
            (by simp [applyOp, update_booking, hval, hfb, htrig, hfe])]
          exact h
        | some ev =>
          have hevmem : ev ∈ s.events := List.mem_of_find?_eq_some hfe
          have hevid : ev.id = b.event_id := by simpa using List.find?_some hfe
          cases hfv : findVenue s ev.venue_id with
          | none =>
            rw [stepResult_of_error (e := .storeFailure)
              (by simp [applyOp, update_booking, hval, hfb, htrig, hfe, hfv])]
            exact h
          | some venue =>
            by_cases hcap :
                venue.capacity < activeSumEx s b.event_id bid + u.quantity.getD b.quantity
            · rw [stepResult_of_error (e := .notEnoughCapacity)
                (by simp [applyOp, update_booking, hval, hfb, htrig, hfe, hfv, hcap])]
              exact h
            · cases hft : findTicketType s b.ticket_type_id with
              | none =>
                rw [stepResult_of_error (e := .storeFailure)
                  (by simp [applyOp, update_booking, hval, hfb, htrig, hfe, hfv, hcap, hft])]
                exact h
              | some tt =>
                rw [stepResult_of_ok (t :=
                  { s with
                    bookings := s.bookings.map (fun x =>
                      if x.id == bid then
                        { applyBookingUpdate u x with
                          total_price := tt.price * ((u.quantity.getD b.quantity : Int) : Rat) }
                      else x) })
                  (by simp [applyOp, update_booking, hval, hfb, htrig, hfe, hfv, hcap, hft])]
                have hgq : ∀ x ∈ s.bookings,
                    0 < (if x.id == bid then
                        { applyBookingUpdate u x with
                          total_price := tt.price * ((u.quantity.getD b.quantity : Int) : Rat) }
                      else x).quantity := by
                  intro x hx
                  split
                  · show 0 < u.quantity.getD x.quantity
                    rw [hq0]
                    exact hq0pos
                  · exact h.bookingQPos x hx
                have hgidp : ∀ x : Booking,
                    (if x.id == bid then
                        { applyBookingUpdate u x with
                          total_price := tt.price * ((u.quantity.getD b.quantity : Int) : Rat) }
                      else x).id = x.id := by
                  intro x
                  split <;> rfl
                have hgev : ∀ x : Booking,
                    (if x.id == bid then
                        { applyBookingUpdate u x with
                          total_price := tt.price * ((u.quantity.getD b.quantity : Int) : Rat) }
                      else x).event_id = x.event_id := by
                  intro x
                  split <;> rfl
                refine ⟨h.venueCapPos, h.venueIdLt, h.eventIdLt, h.eventVenueLt,
                  h.eventsNodup, ?_, ?_, ?_, ?_, ?_⟩
                · intro x hx
                  rcases List.mem_map.mp hx with ⟨y, hy, rfl⟩
                  exact hgq y hy
                · intro x hx
                  rcases List.mem_map.mp hx with ⟨y, hy, rfl⟩
                  rw [hgidp y]
                  exact h.bookingIdLt y hy
                · intro x hx
                  rcases List.mem_map.mp hx with ⟨y, hy, rfl⟩
                  rw [hgev y]
                  exact h.bookingEventLt y hy
                · exact List.Pairwise.map _
                    (fun a c hac => by rw [hgidp a, hgidp c]; exact hac)
                    h.bookingsNodup
                · intro e he v hfv'
                  have hfvs : findVenue s e.venue_id = some v := hfv'
                  have he' : e ∈ s.events := he
                  have hsum : ((s.bookings.map (fun x =>
                        if x.id == bid then
                          { applyBookingUpdate u x with
                            total_price := tt.price * ((u.quantity.getD b.quantity : Int) : Rat) }
                        else x)).map (contrib e.id)).sum
                      = (s.bookings.map (contrib e.id)).sum - contrib e.id b
                        + contrib e.id
                            { applyBookingUpdate u b with
                              total_price := tt.price * ((u.quantity.getD b.quantity : Int) : Rat) } :=
                    sum_contrib_map_update _ bid e.id h.bookingsNodup hbmem hbid
                  show activeSum _ e.id ≤ v.capacity
                  unfold activeSum
                  rw [listActiveSum_eq_sum_contrib]
                  show (List.map (contrib e.id) (s.bookings.map _)).sum ≤ v.capacity
                  rw [hsum]
                  by_cases hee : e.id = b.event_id
                  · have heev : e = ev :=
                      eq_of_mem_mem_pairwise_ne Event.id h.eventsNodup he' hevmem
                        (hee.trans hevid.symm)
                    have hvv : v = venue := by
                      rw [heev] at hfvs
                      rw [hfvs] at hfv
                      exact Option.some.inj hfv
                    rw [← hee] at hcap
                    rw [hgetD] at hcap
                    have hex : activeSumEx s e.id bid
                        = (s.bookings.map (contrib e.id)).sum - contrib e.id b := by
                      rw [hee]
                      unfold activeSumEx
                      exact sum_contribEx b.event_id bid h.bookingsNodup hbmem hbid
                    rw [hex] at hcap
                    have hcl : contrib e.id
                        { applyBookingUpdate u b with
                          total_price := tt.price * ((u.quantity.getD b.quantity : Int) : Rat) }
                        ≤ q0 := by
                      have hq' : ({ applyBookingUpdate u b with
                          total_price := tt.price * ((u.quantity.getD b.quantity : Int) : Rat) }
                            : Booking).quantity = q0 := by
                        show u.quantity.getD b.quantity = q0
                        exact hgetD
                      calc contrib e.id _ ≤ _ :=
                            contrib_le_quantity e.id (by rw [hq']; omega)
                        _ = q0 := hq'
                    rw [hvv]
                    omega
                  · have hc1 : contrib e.id b = 0 := by
                      apply contrib_event_ne
                      simp only [beq_eq_false_iff_ne, ne_eq]
                      exact fun hc => hee hc.symm
                    have hc2 : contrib e.id
                        { applyBookingUpdate u b with
                          total_price := tt.price * ((u.quantity.getD b.quantity : Int) : Rat) }
                        = 0 := by
                      apply contrib_event_ne
                      show (b.event_id == e.id) = false
                      simp only [beq_eq_false_iff_ne, ne_eq]
                      exact fun hc => hee hc.symm
                    rw [hc1, hc2]
                    have hbase := h.cap e he' v hfvs
                    unfold activeSum at hbase
                    rw [listActiveSum_eq_sum_contrib] at hbase
                    omega

theorem inv_emptyStore : Inv emptyStore := by
  refine ⟨?_, ?_, ?_, ?_, List.Pairwise.nil, ?_, ?_, ?_, List.Pairwise.nil, ?_⟩ <;>
    intro x hx <;> cases hx

theorem inv_step_safe (op : Op) (s : Store) (hop : safeOp op = true) (h : Inv s) :
    Inv (stepResult op s) := by
  cases op with
  | createVenue r => exact inv_createVenue r s h
  | updateVenue vid u =>
    exact inv_updateVenue vid u s (Option.isNone_iff_eq_none.mp hop) h
  | deleteVenue vid => exact inv_deleteVenue vid s h
  | createEvent r => exact inv_createEvent r s h
  | updateEvent eid u =>
    exact inv_updateEvent eid u s (Option.isNone_iff_eq_none.mp hop) h
  | deleteEvent eid => exact inv_deleteEvent eid s h
  | createTicketType r => exact inv_createTicketType r s h
  | updateTicketType tid u => exact inv_updateTicketType tid u s h
  | deleteTicketType tid => exact inv_deleteTicketType tid s h
  | createBooking r => exact inv_createBooking r s h
  | updateBooking bid u =>
    exact inv_updateBooking bid u s (Option.isNone_iff_eq_none.mp hop) h
  | updateBookingStatus bid st => exact inv_updateBookingStatus bid st s h
  | deleteBooking bid => exact inv_deleteBooking bid s h

theorem inv_of_safeReachable {s : Store} (h : SafeReachable s) : Inv s := by
  induction h with
  | init => exact inv_emptyStore
  | step op hop _ ih => exact inv_step_safe op _ hop ih

/-! ## Concrete scenario stores (spec §8 scenario: venue capacity 10) -/

/-- Reservation request for 10 tickets of ticket type 1 at event 1. -/
def req10 : BookingCreate :=
  { customer_name := "Dana", customer_email := "dana@example.com",
    quantity := 10, event_id := 1, ticket_type_id := 1 }

/-- Reservation request for 1 ticket of ticket type 1 at event 1. -/
def req1 : BookingCreate :=
  { customer_name := "Evan", customer_email := "evan@example.com",
    quantity := 1, event_id := 1, ticket_type_id := 1 }

/-- A request whose `event_id` exists nowhere and whose quantity is 0. -/
def reqZero : BookingCreate :=
  { customer_name := "Dana", customer_email := "dana@example.com",
    quantity := 0, event_id := 5, ticket_type_id := 1 }

/-- Venue(cap 10), event and ticket type (price 25), no bookings, built
through the exposed operations. -/
def baseStore : Store :=
  stepResult (.createTicketType { name := "Standard", price := 25 })
    (stepResult (.createEvent
        { name := "Concert", event_date := 20260101, venue_id := 1 })
      (stepResult (.createVenue
          { name := "Hall", capacity := 10, address := "1 Main St" })
        emptyStore))

/-- Store `baseStore` plus a pending booking of 10 tickets. -/
def c1Safe : Store :=
  stepResult (.createBooking req10) baseStore

/-- The event record of `baseStore`. -/
def evConcert : Event :=
  { id := 1, name := "Concert", event_date := 20260101, venue_id := 1 }

/-- The ticket-type record of `baseStore` (price kept as the unevaluated
literal the store holds). -/
def ttStd : TicketType := { id := 1, name := "Standard", price := 25 }

/-- The booking record created by `req10` (total_price kept as the
unevaluated product the store holds, so that `rfl` can compare it). -/
def bk10 : Booking :=
  { id := 1, customer_name := "Dana", customer_email := "dana@example.com",
    quantity := 10, total_price := 25 * ((10 : Int) : Rat), status := .pending,
    event_id := 1, ticket_type_id := 1 }

/-- Store `c1Safe` followed by a venue update that shrinks the capacity to 5 —
a reachable state that over-books the venue. -/
def c1Bad : Store :=
  stepResult (.updateVenue 1 { name := none, capacity := some 5, address := none })
    c1Safe

/-- C1 (counterexample): the capacity invariant does not hold in every state
reachable via the exposed operations.  `update_venue` accepts a capacity
reduction without re-checking the event's bookings: after creating a venue of
capacity 10, an event, a ticket type, a pending booking of 10 tickets, and
then updating the venue's capacity to 5, the store is reachable yet the
event's confirmed/pending quantities (10) exceed its venue's capacity (5). -/
theorem C1_invariant_counterexample : Reachable c1Bad ∧ ¬ capacityInvariant c1Bad := by
  constructor
  · exact Reachable.step _ (Reachable.step _ (Reachable.step _ (Reachable.step _
      (Reachable.step _ Reachable.init))))
  · intro hinv
    have hle := hinv { id := 1, name := "Concert", event_date := 20260101, venue_id := 1 }
      (by decide) { id := 1, name := "Hall", capacity := 5, address := "1 Main St" }
      (by decide)
    exact absurd hle (by decide)

/-- C1 (amended): for every state reachable via the exposed operations other
than venue updates that set `capacity`, event updates that set `venue_id`,
and general booking updates that set `status`, every event's
confirmed/pending booking quantities sum to at most its venue's capacity. -/
theorem C1_capacity_invariant_safe (s : Store) (h : SafeReachable s) :
    capacityInvariant s :=
  (inv_of_safeReachable h).cap

/-- C1 witness: the amended invariant theorem applied to the concrete store
`c1Safe` (venue of capacity 10 holding a pending booking of 10 tickets). -/
theorem C1_capacity_invariant_safe_witness :
    SafeReachable c1Safe ∧ capacityInvariant c1Safe := by
  have hsr : SafeReachable c1Safe :=
    SafeReachable.step _ rfl (SafeReachable.step _ rfl (SafeReachable.step _ rfl
      (SafeReachable.step _ rfl SafeReachable.init)))
  exact ⟨hsr, C1_capacity_invariant_safe c1Safe hsr⟩

/-- C2: for every reservation request and store, `create_booking` either
succeeds — appending exactly one new booking whose status is `pending` and
whose `total_price` is the found ticket type's price times the requested
quantity, leaving every other record (and table) unchanged — or fails with
some error, in which case the resulting store is the old one. -/
theorem C2_reserve_contract (r : BookingCreate) (s : Store) :
    (∃ tt : TicketType, findTicketType s r.ticket_type_id = some tt ∧
      create_booking r s = .ok { s with
        bookings := s.bookings ++
          [{ id := s.nextBookingId, customer_name := r.customer_name,
             customer_email := r.customer_email, quantity := r.quantity,
             total_price := tt.price * (r.quantity : Rat),
             status := .pending, event_id := r.event_id,
             ticket_type_id := r.ticket_type_id }]
        nextBookingId := s.nextBookingId + 1 }) ∨
    (∃ e : Err, create_booking r s = .error e ∧
      stepResult (.createBooking r) s = s) := by
  cases hval : validBookingCreate r with
  | false =>
    exact Or.inr ⟨.invalidArgument, by simp [create_booking, hval],
      stepResult_of_error (e := .invalidArgument)
        (by simp [applyOp, create_booking, hval])⟩
  | true =>
    cases hfe : findEvent s r.event_id with
    | none =>
      exact Or.inr ⟨.notFound "event", by simp [create_booking, hval, hfe],
        stepResult_of_error (e := .notFound "event")
          (by simp [applyOp, create_booking, hval, hfe])⟩
    | some ev =>
      cases hft : findTicketType s r.ticket_type_id with
      | none =>
        exact Or.inr ⟨.notFound "ticket_type",
          by simp [create_booking, hval, hfe, hft],
          stepResult_of_error (e := .notFound "ticket_type")
            (by simp [applyOp, create_booking, hval, hfe, hft])⟩
      | some tt =>
        cases hfv : findVenue s ev.venue_id with
        | none =>
          exact Or.inr ⟨.storeFailure,
            by simp [create_booking, hval, hfe, hft, hfv],
            stepResult_of_error (e := .storeFailure)
              (by simp [applyOp, create_booking, hval, hfe, hft, hfv])⟩
        | some venue =>
          by_cases hcap : venue.capacity < activeSum s r.event_id + r.quantity
          · exact Or.inr ⟨.capacityExceeded (venue.capacity - activeSum s r.event_id),
              by simp [create_booking, hval, hfe, hft, hfv, hcap],
              stepResult_of_error
                (e := .capacityExceeded (venue.capacity - activeSum s r.event_id))
                (by simp [applyOp, create_booking, hval, hfe, hft, hfv, hcap])⟩
          · refine Or.inl ⟨tt, hft ▸ rfl, ?_⟩
            simp [create_booking, hval, hfe, hft, hfv, hcap]

/-- C3 (counterexample): a request with a nonexistent `event_id` and
`quantity = 0` is answered with `InvalidArgument` (pydantic rejects the body
before the handler runs), not with `NotFound(event)` as the claim states. -/
theorem C3_order_counterexample :
    findEvent emptyStore reqZero.event_id = none ∧ reqZero.quantity ≤ 0 ∧
    create_booking reqZero emptyStore = .error .invalidArgument ∧
    Err.invalidArgument ≠ Err.notFound "event" := by
  exact ⟨rfl, by decide, by rfl, by decide⟩

/-- C3 (amended): schema validation (quantity > 0 among the other field
constraints) is checked first, at request parsing; the handler then checks
event existence, then ticket-type existence (then capacity).  The first
failing check determines the reported error. -/
theorem C3_check_order (r : BookingCreate) (s : Store) :
    (validBookingCreate r = false →
      create_booking r s = .error .invalidArgument) ∧
    (validBookingCreate r = true → findEvent s r.event_id = none →
      create_booking r s = .error (.notFound "event")) ∧
    (validBookingCreate r = true → (∃ ev, findEvent s r.event_id = some ev) →
      findTicketType s r.ticket_type_id = none →
      create_booking r s = .error (.notFound "ticket_type")) := by
  refine ⟨?_, ?_, ?_⟩
  · intro hval
    simp [create_booking, hval]
  · intro hval hfe
    simp [create_booking, hval, hfe]
  · rintro hval ⟨ev, hfe⟩ hft
    simp [create_booking, hval, hfe, hft]

/-- C3 witness: the three check stages exercised on concrete inputs — an
invalid body on the empty store, a valid body on the empty store (no event),
and a valid body on a store holding the event but no ticket types. -/
theorem C3_check_order_witness :
    create_booking reqZero emptyStore = .error .invalidArgument ∧
    create_booking req1 emptyStore = .error (.notFound "event") ∧
    create_booking req1
        (stepResult (.createEvent
            { name := "Concert", event_date := 20260101, venue_id := 1 })
          (stepResult (.createVenue
              { name := "Hall", capacity := 10, address := "1 Main St" })
            emptyStore))
      = .error (.notFound "ticket_type") := by
  refine ⟨(C3_check_order reqZero emptyStore).1 (by decide),
    (C3_check_order req1 emptyStore).2.1 (by decide) (by decide),
    (C3_check_order req1 _).2.2 (by decide)
      ⟨{ id := 1, name := "Concert", event_date := 20260101, venue_id := 1 },
        by decide⟩ (by decide)⟩

/-- C4: for a schema-valid request whose event and ticket type exist (and
whose event's venue exists), letting `reserved` be the event's
confirmed/pending quantity sum, the reservation fails with
`CapacityExceeded` reporting `available = capacity - reserved` exactly when
`reserved + quantity > capacity`, and succeeds otherwise — in particular
filling the venue exactly to capacity succeeds. -/
theorem C4_capacity_check (r : BookingCreate) (s : Store) (ev : Event)
    (tt : TicketType) (v : Venue)
    (hval : validBookingCreate r = true)
    (hev : findEvent s r.event_id = some ev)
    (htt : findTicketType s r.ticket_type_id = some tt)
    (hv : findVenue s ev.venue_id = some v) :
    (v.capacity < activeSum s r.event_id + r.quantity →
      create_booking r s
        = .error (.capacityExceeded (v.capacity - activeSum s r.event_id))) ∧
    (activeSum s r.event_id + r.quantity ≤ v.capacity →
      ∃ s', create_booking r s = .ok s') := by
  constructor
  · intro hlt
    simp [create_booking, hval, hev, htt, hv, hlt]
  · intro hle
    have hnlt : ¬ (v.capacity < activeSum s r.event_id + r.quantity) :=
      not_lt.mpr hle
    exact ⟨{ s with
        bookings := s.bookings ++
          [{ id := s.nextBookingId, customer_name := r.customer_name,
             customer_email := r.customer_email, quantity := r.quantity,
             total_price := tt.price * (r.quantity : Rat),
             status := .pending, event_id := r.event_id,
             ticket_type_id := r.ticket_type_id }]
        nextBookingId := s.nextBookingId + 1 },
      by simp [create_booking, hval, hev, htt, hv, hnlt]⟩

/-- C4 witness: spec §8 scenario — capacity 10, no bookings: reserving 10
succeeds; a further reservation of 1 fails with available = 0. -/
theorem C4_capacity_check_witness :
    (∃ s', create_booking req10 baseStore = .ok s') ∧
    create_booking req1 c1Safe = .error (.capacityExceeded 0) := by
  constructor
  · exact (C4_capacity_check req10 baseStore evConcert ttStd
      { id := 1, name := "Hall", capacity := 10, address := "1 Main St" }
      (by decide) (by rfl) (by rfl) (by rfl)).2 (by decide)
  · exact (C4_capacity_check req1 c1Safe evConcert ttStd
      { id := 1, name := "Hall", capacity := 10, address := "1 Main St" }
      (by decide) (by rfl) (by rfl) (by rfl)).1 (by decide)

/-- C5: for an existing booking and any of the three statuses, the dedicated
status-update operation fails with `InvalidTransition` exactly when the
current status is cancelled and the new one is not; in every other case it
succeeds, rewriting only that booking's status — with no capacity check of
any kind. -/
theorem C5_status_transition (bid : Nat) (st : BStatus) (s : Store)
    (b : Booking) (hb : findBooking s bid = some b) :
    (b.status = .cancelled ∧ st ≠ .cancelled →
      update_booking_status bid st s = .error .invalidTransition) ∧
    (¬(b.status = .cancelled ∧ st ≠ .cancelled) →
      update_booking_status bid st s = .ok { s with
        bookings := s.bookings.map (fun x =>
          if x.id == bid then { x with status := st } else x) }) := by
  constructor
  · rintro ⟨h1, h2⟩
    have hguard : (b.status == BStatus.cancelled && st != BStatus.cancelled)
        = true := by
      simp [h1, h2]
    simp [update_booking_status, hb, hguard]
  · intro hn
    have hguard : (b.status == BStatus.cancelled && st != BStatus.cancelled)
        = false := by
      by_cases h1 : b.status = .cancelled
      · have h2 : st = .cancelled := by
          by_contra h2
          exact hn ⟨h1, h2⟩
        simp [h2]
      · simp [h1]
    simp [update_booking_status, hb, hguard]

/-- Store `c1Safe` after cancelling its only booking through the dedicated
status-update endpoint. -/
def c6Cancelled : Store := stepResult (.updateBookingStatus 1 .cancelled) c1Safe

/-- C5 witness: confirming the pending booking of the venue-filling store
succeeds (no capacity re-check), and reviving the cancelled booking through
the dedicated endpoint fails. -/
theorem C5_status_transition_witness :
    update_booking_status 1 BStatus.confirmed c1Safe
      = .ok { c1Safe with bookings := c1Safe.bookings.map (fun x =>
          if x.id == 1 then { x with status := BStatus.confirmed } else x) } ∧
    update_booking_status 1 BStatus.pending c6Cancelled
      = .error .invalidTransition := by
  constructor
  · exact (C5_status_transition 1 BStatus.confirmed c1Safe bk10 (by rfl)).2
      (by decide)
  · exact (C5_status_transition 1 BStatus.pending c6Cancelled
      { bk10 with status := .cancelled } (by rfl)).1 (by decide)

/-- The general booking-update request that only sets `status := pending`. -/
def c6Update : BookingUpdate :=
  { customer_name := none, customer_email := none, quantity := none,
    status := some .pending }

/-- Store `c6Cancelled` after a general booking update setting status to pending. -/
def c6Revived : Store := stepResult (.updateBooking 1 c6Update) c6Cancelled

/-- C6: the code contradicts the terminal-cancellation rule it enforces in
`update_booking_status` ("Business rule: Can't change from cancelled"):
`update_booking` applies a `status` field with no such check, so a reachable
store with a cancelled booking is revived to `pending` by the general update
endpoint. -/
theorem C6_cancelled_revived_by_general_update :
    Reachable c6Revived ∧
    (findBooking c6Cancelled 1).map Booking.status = some BStatus.cancelled ∧
    update_booking 1 c6Update c6Cancelled = .ok c6Revived ∧
    (findBooking c6Revived 1).map Booking.status = some BStatus.pending := by
  refine ⟨?_, by decide, by rfl, by decide⟩
  exact Reachable.step _ (Reachable.step _ (Reachable.step _ (Reachable.step _
    (Reachable.step _ (Reachable.step _ Reachable.init)))))

/-- C7: updating an existing booking's quantity to a new positive value `q`
re-runs the capacity check against the event's *other* confirmed/pending
bookings: it fails (without mutation) when their sum plus `q` exceeds the
venue capacity, and otherwise commits with quantity `q` and total_price
recomputed as the booking's ticket-type price times `q`. -/
theorem C7_quantity_update (bid : Nat) (u : BookingUpdate) (s : Store)
    (b : Booking) (ev : Event) (v : Venue) (tt : TicketType) (q : Int)
    (hval : validBookingUpdate u = true)
    (hb : findBooking s bid = some b)
    (hq : u.quantity = some q)
    (hqne : q ≠ b.quantity)
    (hev : findEvent s b.event_id = some ev)
    (hv : findVenue s ev.venue_id = some v)
    (htt : findTicketType s b.ticket_type_id = some tt) :
    (v.capacity < activeSumEx s b.event_id bid + q →
      update_booking bid u s = .error .notEnoughCapacity) ∧
    (activeSumEx s b.event_id bid + q ≤ v.capacity →
      update_booking bid u s = .ok { s with
        bookings := s.bookings.map (fun x =>
          if x.id == bid then
            { applyBookingUpdate u x with total_price := tt.price * (q : Rat) }
          else x) } ∧
      (applyBookingUpdate u b).quantity = q) := by
  have hq0 : (0 : Int) < q := by
    simp only [validBookingUpdate, Bool.and_eq_true] at hval
    have h2 := hval.2
    rw [hq] at h2
    simpa using h2
  have htrig : quantityTriggers u b = true := by
    unfold quantityTriggers
    rw [hq]
    simp [bne_iff_ne, hqne]
    omega
  constructor
  · intro hlt
    simp [update_booking, hval, hb, htrig, hev, hv, hq, hlt]
  · intro hle
    have hnlt : ¬ (v.capacity < activeSumEx s b.event_id bid + q) :=
      not_lt.mpr hle
    refine ⟨?_, by simp [applyBookingUpdate, hq]⟩
    simp [update_booking, hval, hb, htrig, hev, hv, htt, hq, hnlt]

/-- The general booking-update request that only sets `quantity := 5`. -/
def c7Update : BookingUpdate :=
  { customer_name := none, customer_email := none, quantity := some 5,
    status := none }

/-- C7 witness: shrinking the quantity of the venue-filling booking from 10
to 5 passes the capacity check (other bookings sum to 0) and recomputes
total_price = 25 × 5. -/
theorem C7_quantity_update_witness :
    update_booking 1 c7Update c1Safe = .ok { c1Safe with
      bookings := c1Safe.bookings.map (fun x =>
        if x.id == 1 then
          { applyBookingUpdate c7Update x with
            total_price := ttStd.price * ((5 : Int) : Rat) }
        else x) } := by
  exact ((C7_quantity_update 1 c7Update c1Safe bk10 evConcert
    { id := 1, name := "Hall", capacity := 10, address := "1 Main St" }
    ttStd 5
    (by decide) (by rfl) (by rfl) (by decide) (by rfl) (by rfl)
    (by rfl)).2 (by decide)).1

/-- C8: every operation is all-or-nothing — whenever a handler reports any
error of the taxonomy, the resulting store is the original one: no table is
touched.  (Errors are raised before any mutation, and a failed commit rolls
the session back, which the step semantics models by keeping the old
store.) -/
theorem C8_error_leaves_store_unchanged (op : Op) (s : Store) (e : Err)
    (h : applyOp op s = .error e) :
    (stepResult op s).venues = s.venues ∧
    (stepResult op s).events = s.events ∧
    (stepResult op s).ticketTypes = s.ticketTypes ∧
    (stepResult op s).bookings = s.bookings := by
  rw [stepResult_of_error h]
  exact ⟨rfl, rfl, rfl, rfl⟩

/-- C8 witness: deleting a nonexistent venue from the empty store fails with
NotFound and leaves every table unchanged. -/
theorem C8_error_leaves_store_unchanged_witness :
    (stepResult (.deleteVenue 1) emptyStore).venues = emptyStore.venues ∧
    (stepResult (.deleteVenue 1) emptyStore).events = emptyStore.events ∧
    (stepResult (.deleteVenue 1) emptyStore).ticketTypes
      = emptyStore.ticketTypes ∧
    (stepResult (.deleteVenue 1) emptyStore).bookings = emptyStore.bookings :=
  C8_error_leaves_store_unchanged (.deleteVenue 1) emptyStore
    (.notFound "venue") (by rfl)

/-- C9: deleting an existing event removes exactly that event and exactly
its bookings (the `cascade="all, delete-orphan"` relationship), and leaves
every venue, every ticket type, every other event and every booking of
other events unchanged. -/
theorem C9_delete_event_cascade (eid : Nat) (s : Store) (ev : Event)
    (h : findEvent s eid = some ev) :
    ∃ s', delete_event eid s = .ok s' ∧
      s'.venues = s.venues ∧ s'.ticketTypes = s.ticketTypes ∧
      (∀ e : Event, e ∈ s'.events ↔ e ∈ s.events ∧ e.id ≠ eid) ∧
      (∀ b : Booking, b ∈ s'.bookings ↔ b ∈ s.bookings ∧ b.event_id ≠ eid) := by
  refine ⟨{ s with
      events := s.events.filter (fun e => e.id != eid)
      bookings := s.bookings.filter (fun b => b.event_id != eid) },
    by simp [delete_event, h], rfl, rfl, ?_, ?_⟩
  · intro e
    simp [List.mem_filter, bne_iff_ne]
  · intro b
    simp [List.mem_filter, bne_iff_ne]

/-- C9 witness: deleting event 1 of the venue-filling store removes the
event and its booking and keeps the venue and ticket type. -/
theorem C9_delete_event_cascade_witness :
    ∃ s', delete_event 1 c1Safe = .ok s' ∧
      s'.venues = c1Safe.venues ∧ s'.ticketTypes = c1Safe.ticketTypes ∧
      (∀ e : Event, e ∈ s'.events ↔ e ∈ c1Safe.events ∧ e.id ≠ 1) ∧
      (∀ b : Booking, b ∈ s'.bookings ↔ b ∈ c1Safe.bookings ∧ b.event_id ≠ 1) :=
  C9_delete_event_cascade 1 c1Safe
    { id := 1, name := "Concert", event_date := 20260101, venue_id := 1 }
    (by decide)

/-- C10: deleting an existing ticket type fails (leaving the store
unchanged) whenever any booking — of any status — references it, and
succeeds exactly when no booking does, removing only the ticket type; hence
no booking ever references a deleted ticket type. -/
theorem C10_delete_ticket_type_guard (tid : Nat) (s : Store) (t : TicketType)
    (ht : findTicketType s tid = some t) :
    ((∃ b ∈ s.bookings, b.ticket_type_id = tid) →
      delete_ticket_type tid s = .error .cannotDeleteWithBookings) ∧
    ((∀ b ∈ s.bookings, b.ticket_type_id ≠ tid) →
      delete_ticket_type tid s = .ok { s with
          ticketTypes := s.ticketTypes.filter (fun t => t.id != tid) } ∧
      ∀ b ∈ ({ s with
          ticketTypes := s.ticketTypes.filter (fun t => t.id != tid) }
            : Store).bookings,
        b.ticket_type_id ≠ tid) := by
  constructor
  · rintro ⟨b, hb, hbt⟩
    have hany : (s.bookings.any fun b => b.ticket_type_id == tid) = true := by
      rw [List.any_eq_true]
      exact ⟨b, hb, by simp [hbt]⟩
    simp [delete_ticket_type, ht, hany]
  · intro hno
    have hany : (s.bookings.any fun b => b.ticket_type_id == tid) = false := by
      rw [List.any_eq_false]
      intro b hb
      simp [hno b hb]
    exact ⟨by simp [delete_ticket_type, ht, hany], fun b hb => hno b hb⟩

/-- C10 witness: deleting ticket type 1 fails on the store whose booking
references it, and succeeds on the booking-free store. -/
theorem C10_delete_ticket_type_guard_witness :
    delete_ticket_type 1 c1Safe = .error .cannotDeleteWithBookings ∧
    delete_ticket_type 1 baseStore = .ok { baseStore with
      ticketTypes := baseStore.ticketTypes.filter (fun t => t.id != 1) } := by
  constructor
  · have hfb : findBooking c1Safe 1 = some bk10 := by rfl
    exact (C10_delete_ticket_type_guard 1 c1Safe ttStd (by rfl)).1
      ⟨bk10, List.mem_of_find?_eq_some hfb, rfl⟩
  · exact ((C10_delete_ticket_type_guard 1 baseStore ttStd (by rfl)).2
      (by decide)).1

end TicketBooking

